import Mathlib

/-!
Verification of the Christmas-Tree particle engine against its specification.

The definitions below are shallow embeddings of the TypeScript source:
`src/components/ChristmasTree.vue` (dispersion easing, wheel input, card
click/close interaction), `src/components/ParticleSystem.ts` (particle
generation, per-frame update, density culling, aura orbit) and
`src/components/OrnamentSystem.ts` (card frames, texture replacement,
per-frame card update).  JavaScript numbers are modelled as exact
rationals (ℚ) where only field arithmetic and comparisons occur, and as
reals (ℝ) where the code calls `Math.sin`/`Math.cos`/`Math.sqrt`.
-/

namespace ChristmasTree

/-! ### Dispersion easing (ChristmasTree.vue, `animate`, line 382)

`dispersionState.current += (dispersionState.target - dispersionState.current) * 0.05;` -/

def dispersionStep (target current : ℚ) : ℚ :=
  current + (target - current) * (5 / 100)

/-- Iterating the per-frame dispersion update `n` times from `c`. -/
def dispersionIter (target c : ℚ) : ℕ → ℚ
  | 0 => c
  | n + 1 => dispersionStep target (dispersionIter target c n)

/-! ### Wheel input (ChristmasTree.vue, `onWheel`, lines 271-282)

`const delta = event.deltaY * 0.001;`
`dispersionState.target += delta;`
`dispersionState.target = Math.max(0, Math.min(1.5, dispersionState.target));` -/

def onWheel (deltaY target : ℚ) : ℚ :=
  max 0 (min (3 / 2) (target + deltaY * (1 / 1000)))

/-- Applying the same wheel event `n` times starting from target `t`. -/
def wheelIter (deltaY t : ℚ) : ℕ → ℚ
  | 0 => t
  | n + 1 => onWheel deltaY (wheelIter deltaY t n)

/-! ### Density culling (ParticleSystem.ts, `update`/`updateList`, lines 422-484)

`const density = isDeco ? decorationDensity : treeDensity;`
`const visibleCount = Math.floor(list.length * Math.min(1.0, density * densityMultiplier));`
then indices `i < visibleCount` get real transforms and the remaining
indices `visibleCount ≤ i < list.length` get the zero-scale matrix. -/

def visibleCount (len : ℕ) (density densityMultiplier : ℚ) : ℕ :=
  (Int.floor ((len : ℚ) * min 1 (density * densityMultiplier))).toNat

/-- The spec's words for the visible count: `floor(count * density)`
(no cap at 1).  Used to compare the spec's phrasing with the code. -/
def specVisibleCount (len : ℕ) (density : ℚ) : ℕ :=
  (Int.floor ((len : ℚ) * density)).toNat

/-- Scale written to instance slot `i` by `updateList`, given the list of
real (oscillation-modulated) scales of the particles: a real transform for
the visible head of the array, zero scale for the hidden tail. -/
def renderedScale (scales : List ℚ) (density : ℚ) (i : ℕ) : ℚ :=
  if i < visibleCount scales.length density 1 then scales.getD i 0 else 0

/-! ### Per-layer flare (ParticleSystem.ts, `generateTreeData`, lines 91-98)

`const layerProgress = layerResidue; // 0 at bottom of layer, 1 at top of layer`
`// Local flare factor: 1.0 to 0.6 within a layer`
`const flare = 1.0 + 0.4 * (1.0 - layerProgress);` -/

def flare (layerProgress : ℚ) : ℚ :=
  1 + (4 / 10) * (1 - layerProgress)

/-! ### 3D vectors (THREE.Vector3, as used by the source) -/

structure Vec3 where
  x : ℝ
  y : ℝ
  z : ℝ

def normSq (v : Vec3) : ℝ := v.x ^ 2 + v.y ^ 2 + v.z ^ 2

/-- `THREE.Vector3.length()`. -/
noncomputable def length (v : Vec3) : ℝ := Real.sqrt (normSq v)

/-- `THREE.Vector3.normalize()`: divides by `length() || 1`, so the zero
vector is left unchanged. -/
noncomputable def normalize (v : Vec3) : Vec3 :=
  if length v = 0 then v
  else ⟨v.x / length v, v.y / length v, v.z / length v⟩

def add (a b : Vec3) : Vec3 := ⟨a.x + b.x, a.y + b.y, a.z + b.z⟩

def sub (a b : Vec3) : Vec3 := ⟨a.x - b.x, a.y - b.y, a.z - b.z⟩

def smul (c : ℝ) (v : Vec3) : Vec3 := ⟨c * v.x, c * v.y, c * v.z⟩

/-- `THREE.Vector3.lerp(target, alpha)`. -/
def lerp (a b : Vec3) (t : ℝ) : Vec3 := add a (smul t (sub b a))

/-- `ParticleSystem.generateTreeData`, lines 115-120:
`const targetPos = new THREE.Vector3(x, y + 2.0, z);`
`const explosionVec = targetPos.clone().normalize();`
`explosionVec.y += (Math.random() - 0.5) * 0.5;`
`explosionVec.normalize();` -/
noncomputable def treeExplosionVelocity (x h z rand : ℝ) : Vec3 :=
  let e := normalize ⟨x, h + 2, z⟩
  normalize ⟨e.x, e.y + (rand - 1 / 2) * (1 / 2), e.z⟩

/-- `ParticleSystem.generateTrunkData`, lines 184-196:
`const r = (0.4 + 0.6 * Math.sqrt(Math.random())) * trunkRadius;` with
`trunkRadius = 1.4`, `x = cos(angle)*r`, `z = sin(angle)*r`,
`const explosionVec = new THREE.Vector3(x, 0, z).normalize();`
`explosionVec.y = (Math.random() - 0.5) * 0.2;`
`explosionVec.normalize();` -/
noncomputable def trunkExplosionVelocity (angle rand rand2 : ℝ) : Vec3 :=
  let r := (4 / 10 + 6 / 10 * Real.sqrt rand) * (14 / 10)
  let e := normalize ⟨Real.cos angle * r, 0, Real.sin angle * r⟩
  normalize ⟨e.x, (rand2 - 1 / 2) * (2 / 10), e.z⟩

/-- `ParticleSystem.generateSnowData`, line 238:
`explosionVelocity: new THREE.Vector3(0, -1, 0)`. -/
def snowExplosionVelocity : Vec3 := ⟨0, -1, 0⟩

/-- `ParticleSystem.generateAuraData`, lines 249-267:
`theta = rand·2π`, `phi = acos(2·rand − 1)`, `r = 10 + rand·15`,
`x = r sin(phi) cos(theta)`, `y = r sin(phi) sin(theta) + 8`,
`z = r cos(phi)`, `explosionVelocity: new THREE.Vector3(x, y, z).normalize()`. -/
noncomputable def auraExplosionVelocity (rand1 rand2 rand3 : ℝ) : Vec3 :=
  let theta := rand1 * Real.pi * 2
  let phi := Real.arccos (2 * rand2 - 1)
  let r := 10 + rand3 * 15
  normalize ⟨r * Real.sin phi * Real.cos theta,
             r * Real.sin phi * Real.sin theta + 8,
             r * Real.cos phi⟩

noncomputable def oscillatedScale
    (isDeco : Bool) (currentScale time phaseOffset twinkleSpeed : ℝ) : ℝ :=
  if isDeco then
    currentScale *
      (1 + Real.sin (((time + phaseOffset) / (1 / twinkleSpeed)) * Real.pi * 2) * (4 / 10))
  else
    currentScale * (1 + Real.sin (((time + phaseOffset) / 4) * Real.pi * 2) * (5 / 100))

/-! ## Card frames (OrnamentSystem.ts) and card interaction
(ChristmasTree.vue, `handleOrnamentClick` lines 299-346 and `closeViewer`
lines 348-372) -/

/-- Mutable state of one card mesh: transform plus the `userData`
snapshot fields (`originalPosition/Rotation/Scale`, `explosionVelocity`,
`isExpanded`). -/
structure OrnamentState where
  position : Vec3
  rotation : Vec3
  scale : Vec3
  originalPosition : Vec3
  originalRotation : Vec3
  originalScale : Vec3
  explosionVelocity : Vec3
  isExpanded : Bool

/-- End position of the click tween (`handleOrnamentClick`, lines 318-327):
`const outDir = originalPos.clone().normalize().multiplyScalar(2.0);`
`const targetPos = originalPos.clone().add(outDir);` -/
noncomputable def clickEndPosition (originalPos : Vec3) : Vec3 :=
  add originalPos (smul 2 (normalize originalPos))

/-- End state of the click tweens (`handleOrnamentClick`): position pulled
out to `clickEndPosition`, scale tweened to `originalScale * 1.5`, and
`isExpanded` set on completion (line 343). -/
noncomputable def ornamentClickEnd (card : OrnamentState) : OrnamentState :=
  { card with
    position := clickEndPosition card.originalPosition,
    scale := smul (3 / 2) card.originalScale,
    isExpanded := true }

/-- End state of the `closeViewer` tweens (lines 353-370): every expanded
card returns to its stored original position and scale and the
`isExpanded` flag is cleared; other cards are untouched. -/
noncomputable def closeViewerEnd (card : OrnamentState) : OrnamentState :=
  if card.isExpanded then
    { card with
      position := card.originalPosition,
      scale := card.originalScale,
      isExpanded := false }
  else card

/-- `OrnamentSystem.update` (lines 496-525), one card for one frame:
skip entirely when `isExpanded`; otherwise
`const explodeDist = dispersion * 20.0;`
`const targetPos = p.originalPosition.clone();`
`if (dispersion > 0.01) targetPos.addScaledVector(p.explosionVelocity, explodeDist);`
`mesh.position.lerp(targetPos, 0.1);`
`if (dispersion < 0.2) mesh.position.y += Math.sin(time + i) * 0.002;` -/
noncomputable def ornamentFrameUpdate
    (time dispersion : ℝ) (i : ℕ) (card : OrnamentState) : OrnamentState :=
  if card.isExpanded then card
  else
    let explodeDist := dispersion * 20
    let targetPos :=
      if 1 / 100 < dispersion then
        add card.originalPosition (smul explodeDist card.explosionVelocity)
      else card.originalPosition
    let lerped := lerp card.position targetPos (1 / 10)
    let bobbed : Vec3 :=
      if dispersion < 2 / 10 then
        ⟨lerped.x, lerped.y + Real.sin (time + i) * (2 / 1000), lerped.z⟩
      else lerped
    { card with position := bobbed }

/-! ## Card texture replacement (OrnamentSystem.ts, `updateTexture`,
lines 483-494)

`const mesh = this.ornaments.find(o => o.userData.id === id);`
`if (mesh && mesh.material) { ... mat.map = texture; ... }` —
the first card whose id matches gets its material image swapped; nothing
else changes, and an unmatched id changes nothing. -/

/-- A card as seen by `updateTexture`: its identity, its material image,
its position and its attached hit-box geometry. -/
structure OrnamentCard where
  id : String
  image : String
  position : Vec3
  hitSize : Vec3

/-- Id of the first configured card (`ornamentData.ts`). -/
def idOrnamentOne : String := "ornament_1"

/-- An id matching no configured card. -/
def idUnknown : String := "ornament_99"

/-- A replacement image reference, as handed over by the upload store. -/
def srcUpload : String := "blob:upload"

/-- A concrete configured card, used by witnesses. -/
noncomputable def cardOrnamentOne : OrnamentCard :=
  { id := idOrnamentOne
    image := "/images/1.jpg"
    position := ⟨3, 5, 1⟩
    hitSize := ⟨2, 5 / 2, 1⟩ }

/-- A concrete one-card list, used by witnesses. -/
noncomputable def cardListDefault : List OrnamentCard := [cardOrnamentOne]

def updateTexture : List OrnamentCard → String → String → List OrnamentCard
  | [], _, _ => []
  | c :: rest, cid, src =>
    if c.id = cid then { c with image := src } :: rest
    else c :: updateTexture rest cid src

/-! ## Aura per-frame step (ParticleSystem.ts, `update`/`updateAura`,
lines 528-545)

`p.currentPosition.y += Math.sin(time + p.id) * 0.01;`
`const x = p.currentPosition.x * Math.cos(0.002) - p.currentPosition.z * Math.sin(0.002);`
`const z = p.currentPosition.x * Math.sin(0.002) + p.currentPosition.z * Math.cos(0.002);`
`p.currentPosition.x = x; p.currentPosition.z = z;` -/
noncomputable def auraStep (time pid : ℝ) (p : Vec3) : Vec3 :=
  ⟨p.x * Real.cos (2 / 1000) - p.z * Real.sin (2 / 1000),
   p.y + Real.sin (time + pid) * (1 / 100),
   p.x * Real.sin (2 / 1000) + p.z * Real.cos (2 / 1000)⟩

/-! ## Claim theorems over the real-valued embedding -/

/-- A concrete card sitting at `(3,5,1)`, used by witnesses. -/
noncomputable def cardAtThreeFiveOne : OrnamentState :=
  { position := ⟨3, 5, 1⟩
    rotation := ⟨0, 0, 0⟩
    scale := ⟨8 / 10, 8 / 10, 8 / 10⟩
    originalPosition := ⟨3, 5, 1⟩
    originalRotation := ⟨0, 0, 0⟩
    originalScale := ⟨8 / 10, 8 / 10, 8 / 10⟩
    explosionVelocity := ⟨0, 1, 0⟩
    isExpanded := false }

/-! ## Lemmas -/

lemma dispersionStep_gap (t x : ℚ) :
    t - dispersionStep t x = (95 / 100) * (t - x) := by
  unfold dispersionStep; ring

lemma dispersionIter_gap (t c : ℚ) (n : ℕ) :
    t - dispersionIter t c n = (95 / 100) ^ n * (t - c) := by
  induction n with
  | zero => simp [dispersionIter]
  | succ n ih =>
      rw [dispersionIter, dispersionStep_gap, ih, pow_succ]
      ring

lemma onWheel_le (d t : ℚ) : onWheel d t ≤ 3 / 2 := by
  unfold onWheel
  rcases le_total (0 : ℚ) (min (3 / 2) (t + d * (1 / 1000))) with h | h
  · rw [max_eq_right h]; exact min_le_left _ _
  · rw [max_eq_left h]; norm_num

lemma wheelFold_le (ds : List ℚ) (t : ℚ) (ht : t ≤ 3 / 2) :
    List.foldl (fun a d => onWheel d a) t ds ≤ 3 / 2 := by
  induction ds generalizing t with
  | nil => simpa using ht
  | cons d ds ih =>
      simp only [List.foldl_cons]
      exact ih (onWheel d t) (onWheel_le d t)

lemma wheelIter_succ (d t : ℚ) (n : ℕ) :
    wheelIter d t (n + 1) = onWheel d (wheelIter d t n) := rfl

lemma onWheel_500_sat : onWheel 500 (3 / 2) = 3 / 2 := by
  unfold onWheel; norm_num

lemma wheelIter_ten : wheelIter 500 0 10 = 3 / 2 := by
  have c1 : wheelIter 500 0 1 = onWheel 500 0 := wheelIter_succ 500 0 0
  have c2 : wheelIter 500 0 2 = onWheel 500 (wheelIter 500 0 1) := wheelIter_succ 500 0 1
  have c3 : wheelIter 500 0 3 = onWheel 500 (wheelIter 500 0 2) := wheelIter_succ 500 0 2
  have c4 : wheelIter 500 0 4 = onWheel 500 (wheelIter 500 0 3) := wheelIter_succ 500 0 3
  have c5 : wheelIter 500 0 5 = onWheel 500 (wheelIter 500 0 4) := wheelIter_succ 500 0 4
  have c6 : wheelIter 500 0 6 = onWheel 500 (wheelIter 500 0 5) := wheelIter_succ 500 0 5
  have c7 : wheelIter 500 0 7 = onWheel 500 (wheelIter 500 0 6) := wheelIter_succ 500 0 6
  have c8 : wheelIter 500 0 8 = onWheel 500 (wheelIter 500 0 7) := wheelIter_succ 500 0 7
  have c9 : wheelIter 500 0 9 = onWheel 500 (wheelIter 500 0 8) := wheelIter_succ 500 0 8
  have c10 : wheelIter 500 0 10 = onWheel 500 (wheelIter 500 0 9) := wheelIter_succ 500 0 9
  have v1 : wheelIter 500 0 1 = 1 / 2 := by rw [c1]; unfold onWheel; norm_num
  have v2 : wheelIter 500 0 2 = 1 := by rw [c2, v1]; unfold onWheel; norm_num
  have v3 : wheelIter 500 0 3 = 3 / 2 := by rw [c3, v2]; unfold onWheel; norm_num
  have v4 : wheelIter 500 0 4 = 3 / 2 := by rw [c4, v3]; exact onWheel_500_sat
  have v5 : wheelIter 500 0 5 = 3 / 2 := by rw [c5, v4]; exact onWheel_500_sat
  have v6 : wheelIter 500 0 6 = 3 / 2 := by rw [c6, v5]; exact onWheel_500_sat
  have v7 : wheelIter 500 0 7 = 3 / 2 := by rw [c7, v6]; exact onWheel_500_sat
  have v8 : wheelIter 500 0 8 = 3 / 2 := by rw [c8, v7]; exact onWheel_500_sat
  have v9 : wheelIter 500 0 9 = 3 / 2 := by rw [c9, v8]; exact onWheel_500_sat
  rw [c10, v9]; exact onWheel_500_sat

lemma visibleCount_mono (len : ℕ) {a b : ℚ} (h : a ≤ b) :
    visibleCount len a 1 ≤ visibleCount len b 1 := by
  unfold visibleCount
  apply Int.toNat_le_toNat
  apply Int.floor_le_floor
  apply mul_le_mul_of_nonneg_left _ (by positivity)
  exact min_le_min le_rfl (by simpa using h)

lemma visibleCount_le_len (len : ℕ) (d : ℚ) :
    visibleCount len d 1 ≤ len := by
  unfold visibleCount
  have h1 : (len : ℚ) * min 1 (d * 1) ≤ (len : ℚ) := by
    rcases le_total (min 1 (d * 1)) 0 with h | h
    · calc (len : ℚ) * min 1 (d * 1) ≤ 0 :=
            mul_nonpos_of_nonneg_of_nonpos (by positivity) h
        _ ≤ (len : ℚ) := by positivity
    · calc (len : ℚ) * min 1 (d * 1) ≤ (len : ℚ) * 1 :=
            mul_le_mul_of_nonneg_left (min_le_left _ _) (by positivity)
        _ = (len : ℚ) := mul_one _
  have h2 : Int.floor ((len : ℚ) * min 1 (d * 1)) ≤ (len : ℤ) := by
    have := Int.floor_le_floor h1
    simpa using this
  exact Int.toNat_le.mpr h2

lemma specVisibleCount_le_len (len : ℕ) {d : ℚ} (hd : d ≤ 1) :
    specVisibleCount len d ≤ len := by
  unfold specVisibleCount
  apply Int.toNat_le.mpr
  have h1 : (len : ℚ) * d ≤ (len : ℚ) :=
    mul_le_of_le_one_right (by positivity) hd
  have := Int.floor_le_floor h1
  simpa using this

lemma len_le_specVisibleCount (len : ℕ) {d : ℚ} (hd : 1 ≤ d) :
    len ≤ specVisibleCount len d := by
  unfold specVisibleCount
  have h1 : (len : ℚ) ≤ (len : ℚ) * d :=
    le_mul_of_one_le_right (by positivity) hd
  have h2 : (len : ℤ) ≤ Int.floor ((len : ℚ) * d) := by
    have := Int.floor_le_floor h1
    simpa using this
  omega

/-! ## Claim theorems -/

lemma normSq_mk (a b c : ℝ) : normSq ⟨a, b, c⟩ = a ^ 2 + b ^ 2 + c ^ 2 := rfl

lemma length_mk (a b c : ℝ) :
    length ⟨a, b, c⟩ = Real.sqrt (a ^ 2 + b ^ 2 + c ^ 2) := rfl

lemma normSq_nonneg (v : Vec3) : 0 ≤ normSq v := by unfold normSq; positivity

lemma length_eq_zero_iff (v : Vec3) : length v = 0 ↔ normSq v = 0 := by
  unfold length
  rw [Real.sqrt_eq_zero (normSq_nonneg v)]

lemma length_pos (v : Vec3) (h : normSq v ≠ 0) : 0 < length v :=
  Real.sqrt_pos.mpr (lt_of_le_of_ne (normSq_nonneg v) (Ne.symm h))

lemma normalize_apply (v : Vec3) (h : normSq v ≠ 0) :
    normalize v = ⟨v.x / length v, v.y / length v, v.z / length v⟩ := by
  unfold normalize
  rw [if_neg (fun h0 => h ((length_eq_zero_iff v).mp h0))]

lemma normSq_normalize (v : Vec3) (h : normSq v ≠ 0) :
    normSq (normalize v) = 1 := by
  have hL : (0 : ℝ) < length v := length_pos v h
  have hL2 : length v ^ 2 = normSq v := Real.sq_sqrt (normSq_nonneg v)
  rw [normalize_apply v h, normSq_mk]
  field_simp
  rw [hL2]
  unfold normSq
  ring

lemma length_normalize (v : Vec3) (h : normSq v ≠ 0) :
    length (normalize v) = 1 := by
  unfold length
  rw [normSq_normalize v h, Real.sqrt_one]

lemma normSq_eq_zero (v : Vec3) :
    normSq v = 0 ↔ v.x = 0 ∧ v.y = 0 ∧ v.z = 0 := by
  unfold normSq
  constructor
  · intro h
    refine ⟨?_, ?_, ?_⟩ <;>
      nlinarith [sq_nonneg v.x, sq_nonneg v.y, sq_nonneg v.z]
  · rintro ⟨hx, hy, hz⟩
    rw [hx, hy, hz]; ring

lemma length_smul (c : ℝ) (v : Vec3) : length (smul c v) = |c| * length v := by
  unfold smul
  rw [length_mk,
    show (c * v.x) ^ 2 + (c * v.y) ^ 2 + (c * v.z) ^ 2 =
      c ^ 2 * (v.x ^ 2 + v.y ^ 2 + v.z ^ 2) from by ring,
    Real.sqrt_mul (sq_nonneg c), Real.sqrt_sq_eq_abs]
  rfl

/-! ## Explosion velocities at generation time -/

lemma tree_explosion_unit (x h z rand : ℝ) (hh : 0 ≤ h) (hr0 : 0 ≤ rand) :
    length (treeExplosionVelocity x h z rand) = 1 := by
  have htp : normSq (⟨x, h + 2, z⟩ : Vec3) ≠ 0 := by
    rw [normSq_mk]
    nlinarith [sq_nonneg x, sq_nonneg z]
  have hL : (0 : ℝ) < length ⟨x, h + 2, z⟩ := length_pos _ htp
  have hey : (0 : ℝ) < (normalize ⟨x, h + 2, z⟩).y := by
    rw [normalize_apply _ htp]
    exact div_pos (by show (0 : ℝ) < h + 2; linarith) hL
  have he : normSq (normalize ⟨x, h + 2, z⟩) = 1 := normSq_normalize _ htp
  unfold treeExplosionVelocity
  apply length_normalize
  intro hc
  rw [normSq_eq_zero] at hc
  obtain ⟨hcx, hcy, hcz⟩ := hc
  simp only at hcx hcy hcz
  have hy2 : (normalize ⟨x, h + 2, z⟩).y ^ 2 = 1 := by
    unfold normSq at he
    nlinarith [he]
  have hy1 : (normalize ⟨x, h + 2, z⟩).y = 1 := by
    rcases mul_eq_zero.mp (show ((normalize ⟨x, h + 2, z⟩).y - 1) *
        ((normalize ⟨x, h + 2, z⟩).y + 1) = 0 from by nlinarith [hy2]) with h1 | h1
    · linarith
    · linarith
  rw [hy1] at hcy
  nlinarith [hcy]

lemma trunk_explosion_unit (angle rand rand2 : ℝ) :
    length (trunkExplosionVelocity angle rand rand2) = 1 := by
  have hrpos : (0 : ℝ) < (4 / 10 + 6 / 10 * Real.sqrt rand) * (14 / 10) := by
    positivity
  have hbase : normSq (⟨Real.cos angle * ((4 / 10 + 6 / 10 * Real.sqrt rand) * (14 / 10)), 0,
      Real.sin angle * ((4 / 10 + 6 / 10 * Real.sqrt rand) * (14 / 10))⟩ : Vec3) =
      ((4 / 10 + 6 / 10 * Real.sqrt rand) * (14 / 10)) ^ 2 := by
    rw [normSq_mk]
    linear_combination ((4 / 10 + 6 / 10 * Real.sqrt rand) * (14 / 10)) ^ 2 *
      Real.sin_sq_add_cos_sq angle
  have hne : normSq (⟨Real.cos angle * ((4 / 10 + 6 / 10 * Real.sqrt rand) * (14 / 10)), 0,
      Real.sin angle * ((4 / 10 + 6 / 10 * Real.sqrt rand) * (14 / 10))⟩ : Vec3) ≠ 0 := by
    rw [hbase]
    positivity
  have he := normSq_normalize _ hne
  have hey : (normalize (⟨Real.cos angle * ((4 / 10 + 6 / 10 * Real.sqrt rand) * (14 / 10)), 0,
      Real.sin angle * ((4 / 10 + 6 / 10 * Real.sqrt rand) * (14 / 10))⟩ : Vec3)).y = 0 := by
    rw [normalize_apply _ hne]
    simp only
    rw [zero_div]
  unfold trunkExplosionVelocity
  apply length_normalize
  rw [normSq_mk]
  unfold normSq at he
  rw [hey] at he
  intro hc
  nlinarith [sq_nonneg ((rand2 - 1 / 2) * (2 / 10)), he, hc]

lemma snow_explosion_unit : length snowExplosionVelocity = 1 := by
  unfold snowExplosionVelocity
  rw [length_mk]
  norm_num

lemma aura_explosion_unit (rand1 rand2 rand3 : ℝ) (h3 : 0 ≤ rand3) :
    length (auraExplosionVelocity rand1 rand2 rand3) = 1 := by
  have hr : (10 : ℝ) ≤ 10 + rand3 * 15 := by nlinarith
  have hpy1 := Real.sin_sq_add_cos_sq (Real.arccos (2 * rand2 - 1))
  have hpy2 := Real.sin_sq_add_cos_sq (rand1 * Real.pi * 2)
  unfold auraExplosionVelocity
  apply length_normalize
  rw [normSq_mk]
  set r : ℝ := 10 + rand3 * 15 with hrdef
  set s1 : ℝ := Real.sin (Real.arccos (2 * rand2 - 1)) with hs1def
  set c1 : ℝ := Real.cos (Real.arccos (2 * rand2 - 1)) with hc1def
  set s2 : ℝ := Real.sin (rand1 * Real.pi * 2) with hs2def
  set c2 : ℝ := Real.cos (rand1 * Real.pi * 2) with hc2def
  have hs1 : s1 ^ 2 ≤ 1 := by nlinarith [sq_nonneg c1]
  have hs2 : s2 ^ 2 ≤ 1 := by nlinarith [sq_nonneg c2]
  have ht : -1 ≤ s1 * s2 := by nlinarith [sq_nonneg (s1 + s2)]
  have key : (r * s1 * c2) ^ 2 + (r * s1 * s2 + 8) ^ 2 + (r * c1) ^ 2 =
      r ^ 2 + 16 * r * (s1 * s2) + 64 := by
    linear_combination (r ^ 2 * s1 ^ 2) * hpy2 + r ^ 2 * hpy1
  rw [key]
  have hprod : 0 ≤ r * (1 + s1 * s2) :=
    mul_nonneg (by linarith) (by linarith)
  nlinarith [sq_nonneg (r - 10)]

/-! ## Claim theorems and witnesses -/

/-- Claim C1: each frame the dispersion update sets `current` to
`current + (target - current) * 0.05`, so the gap `target - current` is
multiplied by exactly 0.95 per frame; with the target held at 1.5,
iterating from any start in [0, 1.5] is within 1% of 1.5 after 90 frames
(and for every later frame). -/
theorem C1_dispersion_easing (c : ℚ) (h0 : 0 ≤ c) (h1 : c ≤ 3 / 2) :
    (∀ t x : ℚ, t - dispersionStep t x = (95 / 100) * (t - x)) ∧
    ∀ n : ℕ, 90 ≤ n →
      |dispersionIter (3 / 2) c n - 3 / 2| ≤ (3 / 2) * (1 / 100) := by
  refine ⟨dispersionStep_gap, fun n hn => ?_⟩
  have hgap := dispersionIter_gap (3 / 2) c n
  have hrw : dispersionIter (3 / 2) c n - 3 / 2 =
      -((95 / 100) ^ n * (3 / 2 - c)) := by linarith
  rw [hrw, abs_neg,
    abs_of_nonneg (mul_nonneg (by positivity) (by linarith))]
  have h95 : ((95 : ℚ) / 100) ^ n ≤ (95 / 100) ^ 90 :=
    pow_le_pow_of_le_one (by norm_num) (by norm_num) hn
  have hbound : ((95 : ℚ) / 100) ^ 90 ≤ 1 / 100 := by norm_num
  calc ((95 : ℚ) / 100) ^ n * (3 / 2 - c)
      ≤ (95 / 100) ^ n * (3 / 2) :=
        mul_le_mul_of_nonneg_left (by linarith) (by positivity)
    _ ≤ (1 / 100) * (3 / 2) :=
        mul_le_mul_of_nonneg_right (le_trans h95 hbound) (by norm_num)
    _ = (3 / 2) * (1 / 100) := by ring

/-- Witness for C1 at the concrete start `current = 1`. -/
theorem C1_dispersion_easing_witness :
    (0 : ℚ) ≤ 1 ∧ (1 : ℚ) ≤ 3 / 2 ∧
    ((∀ t x : ℚ, t - dispersionStep t x = (95 / 100) * (t - x)) ∧
      ∀ n : ℕ, 90 ≤ n →
        |dispersionIter (3 / 2) 1 n - 3 / 2| ≤ (3 / 2) * (1 / 100)) :=
  ⟨by norm_num, by norm_num,
    C1_dispersion_easing 1 (by norm_num) (by norm_num)⟩

/-- Claim C2: each wheel event sets the dispersion target to the previous
target plus `deltaY * 0.001`, clamped into [0, 1.5]; from target 0 one
event with `deltaY = 500` yields 0.5, ten such events yield exactly 1.5,
and no sequence of wheel events ever pushes the target above 1.5. -/
theorem C2_wheel_clamp :
    (∀ d t : ℚ, onWheel d t = max 0 (min (3 / 2) (t + d * (1 / 1000)))) ∧
    onWheel 500 0 = 1 / 2 ∧
    wheelIter 500 0 10 = 3 / 2 ∧
    ∀ ds : List ℚ, List.foldl (fun a d => onWheel d a) 0 ds ≤ 3 / 2 := by
  refine ⟨fun d t => rfl, ?_, wheelIter_ten, fun ds => wheelFold_le ds 0 (by norm_num)⟩
  unfold onWheel
  norm_num

/-- Claim C3: for every tree-attached population the per-frame update
draws exactly the density-gated head of the stored array — the code's
visible count equals `min count ⌊count·density⌋`, i.e. the first
`⌊count·density⌋` particles that exist — and collapses the remaining
slots to zero scale; the visible count is monotone in density and the
visible index set at density 0.5 is a prefix of the one at density 1.0. -/
theorem C3_density_culling (len : ℕ) (d : ℚ) (hd : 0 ≤ d) :
    visibleCount len d 1 = min len (specVisibleCount len d) ∧
    (∀ d2 : ℚ, d ≤ d2 → visibleCount len d 1 ≤ visibleCount len d2 1) ∧
    (∀ i : ℕ, i < visibleCount len (1 / 2) 1 → i < visibleCount len 1 1) ∧
    ∀ (scales : List ℚ) (i : ℕ),
      visibleCount scales.length d 1 ≤ i → renderedScale scales d i = 0 := by
  refine ⟨?_, fun d2 h => visibleCount_mono len h, ?_, ?_⟩
  · rcases le_total d 1 with h | h
    · have hm : min 1 (d * 1) = d := by rw [mul_one]; exact min_eq_right h
      have hspec := specVisibleCount_le_len len h
      unfold visibleCount
      rw [hm, min_eq_right hspec]
      rfl
    · have hm : min 1 (d * 1) = 1 := by rw [mul_one]; exact min_eq_left h
      have hspec := len_le_specVisibleCount len h
      unfold visibleCount
      rw [hm, min_eq_left hspec, mul_one]
      simp
  · intro i hi
    exact lt_of_lt_of_le hi (visibleCount_mono len (by norm_num))
  · intro scales i hi
    unfold renderedScale
    rw [if_neg (by omega)]

/-- Witness for C3 at `len = 10`, `density = 1/2`. -/
theorem C3_density_culling_witness :
    (0 : ℚ) ≤ 1 / 2 ∧
    (visibleCount 10 (1 / 2) 1 = min 10 (specVisibleCount 10 (1 / 2)) ∧
      (∀ d2 : ℚ, 1 / 2 ≤ d2 → visibleCount 10 (1 / 2) 1 ≤ visibleCount 10 d2 1) ∧
      (∀ i : ℕ, i < visibleCount 10 (1 / 2) 1 → i < visibleCount 10 1 1) ∧
      ∀ (scales : List ℚ) (i : ℕ),
        visibleCount scales.length (1 / 2) 1 ≤ i →
          renderedScale scales (1 / 2) i = 0) :=
  ⟨by norm_num, C3_density_culling 10 (1 / 2) (by norm_num)⟩

/-- Claim C6 (code bug): the code's per-layer flare factor
`1.0 + 0.4 * (1.0 - layerProgress)` evaluates to 1.4 at the layer bottom
(`layerProgress = 0`) and 1.0 at the layer top (`layerProgress = 1`) — it
widens the bottom relative to the top, but its range is [1.0, 1.4], not
the 1.0 → 0.6 range stated by the claim and by the code's own comment. -/
theorem C6_flare_code_eval :
    flare 0 = 7 / 5 ∧ flare 1 = 1 ∧ flare 0 ≠ 1 ∧ flare 1 ≠ 3 / 5 := by
  refine ⟨by norm_num [flare], by norm_num [flare], by norm_num [flare],
    by norm_num [flare]⟩

/-! ## 3D vectors (THREE.Vector3, as used by the source) -/

/-- Claim C4: for every particle of every population (tree volume, trunk,
snow, aura), the generated `explosionVelocity` has Euclidean magnitude
exactly 1 (hence within 1e-6 of 1), for all outcomes of the random draws
used during generation. -/
theorem C4_explosionVelocity_unit
    (x h z rand : ℝ) (hh : 0 ≤ h) (hr0 : 0 ≤ rand) (hr1 : rand ≤ 1)
    (angle ra rb rand1 rand2 rand3 : ℝ) (h3 : 0 ≤ rand3) :
    length (treeExplosionVelocity x h z rand) = 1 ∧
    length (trunkExplosionVelocity angle ra rb) = 1 ∧
    length snowExplosionVelocity = 1 ∧
    length (auraExplosionVelocity rand1 rand2 rand3) = 1 :=
  ⟨tree_explosion_unit x h z rand hh hr0,
   trunk_explosion_unit angle ra rb,
   snow_explosion_unit,
   aura_explosion_unit rand1 rand2 rand3 h3⟩

/-- Witness for C4 at concrete random draws. -/
theorem C4_explosionVelocity_unit_witness :
    ((0 : ℝ) ≤ 0 ∧ (0 : ℝ) ≤ 0 ∧ (0 : ℝ) ≤ 1 ∧ (0 : ℝ) ≤ 0) ∧
    (length (treeExplosionVelocity 0 0 0 0) = 1 ∧
      length (trunkExplosionVelocity 0 0 0) = 1 ∧
      length snowExplosionVelocity = 1 ∧
      length (auraExplosionVelocity 0 0 0) = 1) :=
  ⟨⟨le_refl 0, le_refl 0, by norm_num, le_refl 0⟩,
    C4_explosionVelocity_unit 0 0 0 0 (le_refl 0) (le_refl 0) (by norm_num)
      0 0 0 0 0 0 (le_refl 0)⟩

/-! ## Per-frame oscillation of tree-attached populations
(ParticleSystem.ts, `update`/`updateList`, lines 443-452)

`let scale = p.currentScale;`
`const timeOffset = time + p.phaseOffset;`
`if (isDeco) scale *= (1 + Math.sin((timeOffset / (1.0 / twinkleSpeed)) * Math.PI * 2) * 0.4);`
`else scale *= (1 + Math.sin((timeOffset / 4.0) * Math.PI * 2) * 0.05);`
`isDeco` is true exactly for the decoration, gift and candy population
calls and false for foliage and trunk. -/

/-- Claim C5 counterexample: for a card at `originalPosition = (3,5,1)`
the click tween's end position is NOT the original position offset by 2
units along the normalized `(3,0,1)` direction — the code offsets along
the normalized full position `(3,5,1)`, which moves the y coordinate. -/
theorem C5_click_direction_counterexample :
    clickEndPosition ⟨3, 5, 1⟩ ≠ add ⟨3, 5, 1⟩ (smul 2 (normalize ⟨3, 0, 1⟩)) := by
  intro hc
  have h35 : normSq (⟨3, 5, 1⟩ : Vec3) ≠ 0 := by rw [normSq_mk]; norm_num
  have h10 : normSq (⟨3, 0, 1⟩ : Vec3) ≠ 0 := by rw [normSq_mk]; norm_num
  have hy : (clickEndPosition ⟨3, 5, 1⟩).y =
      (add ⟨3, 5, 1⟩ (smul 2 (normalize ⟨3, 0, 1⟩))).y := by rw [hc]
  unfold clickEndPosition at hy
  rw [normalize_apply _ h35, normalize_apply _ h10] at hy
  unfold add smul at hy
  simp only at hy
  have hL : (0 : ℝ) < length ⟨3, 5, 1⟩ := length_pos _ h35
  have h5 : (0 : ℝ) < 2 * ((5 : ℝ) / length ⟨3, 5, 1⟩) := by positivity
  rw [zero_div] at hy
  linarith [hy]

/-- Claim C5 (amended): for a card whose `originalPosition` is `(3,5,1)`,
the click tween ends with scale `originalScale * 1.5` and position equal
to `originalPosition` offset by exactly 2 units along the normalized full
position direction `(3,5,1)/√35` (not the y-zeroed `(3,0,1)` direction),
and marks the card expanded; a subsequent close signal returns position
and scale to the stored original snapshot and clears `isExpanded`. -/
theorem C5_click_close_amended (card : OrnamentState)
    (hpos : card.originalPosition = ⟨3, 5, 1⟩) :
    (ornamentClickEnd card).scale = smul (3 / 2) card.originalScale ∧
    (ornamentClickEnd card).position =
      ⟨3 + 2 * (3 / Real.sqrt 35), 5 + 2 * (5 / Real.sqrt 35),
        1 + 2 * (1 / Real.sqrt 35)⟩ ∧
    length (sub (ornamentClickEnd card).position card.originalPosition) = 2 ∧
    (ornamentClickEnd card).isExpanded = true ∧
    (closeViewerEnd (ornamentClickEnd card)).position = card.originalPosition ∧
    (closeViewerEnd (ornamentClickEnd card)).scale = card.originalScale ∧
    (closeViewerEnd (ornamentClickEnd card)).isExpanded = false := by
  have h35 : normSq (⟨3, 5, 1⟩ : Vec3) ≠ 0 := by rw [normSq_mk]; norm_num
  have hlen : length (⟨3, 5, 1⟩ : Vec3) = Real.sqrt 35 := by
    rw [length_mk]; norm_num
  have hposform : clickEndPosition (⟨3, 5, 1⟩ : Vec3) =
      ⟨3 + 2 * (3 / Real.sqrt 35), 5 + 2 * (5 / Real.sqrt 35),
        1 + 2 * (1 / Real.sqrt 35)⟩ := by
    unfold clickEndPosition
    rw [normalize_apply _ h35]
    unfold add smul
    simp only
    rw [hlen]
  refine ⟨rfl, ?_, ?_, rfl, ?_, ?_, ?_⟩
  · show clickEndPosition card.originalPosition = _
    rw [hpos, hposform]
  · show length (sub (clickEndPosition card.originalPosition) card.originalPosition) = 2
    rw [hpos]
    have hsub : sub (clickEndPosition ⟨3, 5, 1⟩) ⟨3, 5, 1⟩ =
        smul 2 (normalize ⟨3, 5, 1⟩) := by
      unfold clickEndPosition add sub smul
      simp only [Vec3.mk.injEq]
      refine ⟨by ring, by ring, by ring⟩
    rw [hsub, length_smul, length_normalize _ h35]
    norm_num
  · simp [closeViewerEnd, ornamentClickEnd]
  · simp [closeViewerEnd, ornamentClickEnd]
  · simp [closeViewerEnd, ornamentClickEnd]

/-- Witness for C5 (amended) at a concrete card. -/
theorem C5_click_close_amended_witness :
    cardAtThreeFiveOne.originalPosition = ⟨3, 5, 1⟩ ∧
    ((ornamentClickEnd cardAtThreeFiveOne).scale =
        smul (3 / 2) cardAtThreeFiveOne.originalScale ∧
      (ornamentClickEnd cardAtThreeFiveOne).position =
        ⟨3 + 2 * (3 / Real.sqrt 35), 5 + 2 * (5 / Real.sqrt 35),
          1 + 2 * (1 / Real.sqrt 35)⟩ ∧
      length (sub (ornamentClickEnd cardAtThreeFiveOne).position
          cardAtThreeFiveOne.originalPosition) = 2 ∧
      (ornamentClickEnd cardAtThreeFiveOne).isExpanded = true ∧
      (closeViewerEnd (ornamentClickEnd cardAtThreeFiveOne)).position =
        cardAtThreeFiveOne.originalPosition ∧
      (closeViewerEnd (ornamentClickEnd cardAtThreeFiveOne)).scale =
        cardAtThreeFiveOne.originalScale ∧
      (closeViewerEnd (ornamentClickEnd cardAtThreeFiveOne)).isExpanded = false) :=
  ⟨rfl, C5_click_close_amended cardAtThreeFiveOne rfl⟩

/-- Claim C7: the per-frame visible-scale multiplier on `currentScale` is
`1 + 0.4 * sin(2π * (time + phaseOffset) * twinkleSpeed)` for the
decorative populations (decoration, gift, candy) and
`1 + 0.05 * sin(2π * (time + phaseOffset) / 4)` for foliage and trunk,
for every time, phase offset and twinkle speed. -/
theorem C7_oscillation_formula (cs t p s : ℝ) :
    oscillatedScale true cs t p s =
      cs * (1 + (4 / 10) * Real.sin (2 * Real.pi * (t + p) * s)) ∧
    oscillatedScale false cs t p s =
      cs * (1 + (5 / 100) * Real.sin (2 * Real.pi * (t + p) / 4)) := by
  constructor
  · have harg : ((t + p) / (1 / s)) * Real.pi * 2 = 2 * Real.pi * (t + p) * s := by
      rw [div_div_eq_mul_div]; ring
    simp only [oscillatedScale, if_true]
    rw [harg]; ring
  · have harg : ((t + p) / 4) * Real.pi * 2 = 2 * Real.pi * (t + p) / 4 := by ring
    simp only [oscillatedScale, Bool.false_eq_true, if_false]
    rw [harg]; ring

/-- Claim C8: `updateTexture(cardId, imageRef)` is a no-op when no card
has the given id, and otherwise changes only the matched card's material
image, leaving every card's identity, position and hit geometry (and
every other card entirely) unchanged. -/
theorem C8_updateTexture_isolated (cards : List OrnamentCard) (cid src : String) :
    ((∀ c ∈ cards, c.id ≠ cid) → updateTexture cards cid src = cards) ∧
    (updateTexture cards cid src).length = cards.length ∧
    ∀ (i : ℕ) (c c' : OrnamentCard),
      cards.get? i = some c → (updateTexture cards cid src).get? i = some c' →
        c'.id = c.id ∧ c'.position = c.position ∧ c'.hitSize = c.hitSize ∧
        (c.id ≠ cid → c' = c) := by
  induction cards with
  | nil =>
      refine ⟨fun _ => rfl, rfl, ?_⟩
      intro i c c' hc
      simp at hc
  | cons a rest ih =>
      by_cases ha : a.id = cid
      · refine ⟨fun hall => absurd ha (hall a (by simp)), ?_, ?_⟩
        · simp [updateTexture, ha]
        · intro i c c' hc hc'
          rw [show updateTexture (a :: rest) cid src =
              { a with image := src } :: rest from by simp [updateTexture, ha]] at hc'
          cases i with
          | zero =>
              simp at hc hc'
              subst hc
              subst hc'
              exact ⟨rfl, rfl, rfl, fun hne => absurd ha hne⟩
          | succ n =>
              simp only [List.get?] at hc hc'
              rw [hc] at hc'
              injection hc' with hc'
              subst hc'
              exact ⟨rfl, rfl, rfl, fun _ => rfl⟩
      · have hstep : updateTexture (a :: rest) cid src =
            a :: updateTexture rest cid src := by simp [updateTexture, ha]
        refine ⟨?_, ?_, ?_⟩
        · intro hall
          rw [hstep, ih.1 (fun c hc => hall c (by simp [hc]))]
        · rw [hstep]
          simp [ih.2.1]
        · intro i c c' hc hc'
          rw [hstep] at hc'
          cases i with
          | zero =>
              simp at hc hc'
              subst hc
              subst hc'
              exact ⟨rfl, rfl, rfl, fun _ => rfl⟩
          | succ n =>
              simp only [List.get?] at hc hc'
              exact ih.2.2 n c c' hc hc'

/-- Witness for C8 at a concrete one-card list and an unknown id. -/
theorem C8_updateTexture_isolated_witness :
    updateTexture (cardListDefault) (idUnknown) (srcUpload) = cardListDefault :=
  (C8_updateTexture_isolated cardListDefault idUnknown srcUpload).1
    (by
      intro c hc
      simp [cardListDefault, cardOrnamentOne] at hc
      subst hc
      decide)

/-- Claim C9: the per-frame card update skips any card flagged
`isExpanded`: its position, rotation and scale (indeed its whole state)
are unchanged, for all values of time and dispersion. -/
theorem C9_expanded_cards_skipped (t d : ℝ) (i : ℕ) (card : OrnamentState)
    (h : card.isExpanded = true) :
    ornamentFrameUpdate t d i card = card ∧
    (ornamentFrameUpdate t d i card).position = card.position ∧
    (ornamentFrameUpdate t d i card).rotation = card.rotation ∧
    (ornamentFrameUpdate t d i card).scale = card.scale := by
  have hskip : ornamentFrameUpdate t d i card = card := by
    unfold ornamentFrameUpdate
    rw [if_pos h]
  exact ⟨hskip, by rw [hskip], by rw [hskip], by rw [hskip]⟩

/-- Witness for C9 at a concrete expanded card. -/
theorem C9_expanded_cards_skipped_witness :
    (ornamentClickEnd cardAtThreeFiveOne).isExpanded = true ∧
    (ornamentFrameUpdate 0 0 0 (ornamentClickEnd cardAtThreeFiveOne) =
        ornamentClickEnd cardAtThreeFiveOne ∧
      (ornamentFrameUpdate 0 0 0 (ornamentClickEnd cardAtThreeFiveOne)).position =
        (ornamentClickEnd cardAtThreeFiveOne).position ∧
      (ornamentFrameUpdate 0 0 0 (ornamentClickEnd cardAtThreeFiveOne)).rotation =
        (ornamentClickEnd cardAtThreeFiveOne).rotation ∧
      (ornamentFrameUpdate 0 0 0 (ornamentClickEnd cardAtThreeFiveOne)).scale =
        (ornamentClickEnd cardAtThreeFiveOne).scale) :=
  ⟨rfl, C9_expanded_cards_skipped 0 0 0 (ornamentClickEnd cardAtThreeFiveOne) rfl⟩

/-- Claim C10: the aura per-frame step rotates each particle about the
vertical axis by the fixed angle 0.002 rad, so (in exact real arithmetic)
`x² + z²` is preserved, and the y coordinate changes only by the bob term
`sin(time + id) * 0.01`. -/
theorem C10_aura_orbit_radius (t pid : ℝ) (p : Vec3) :
    (auraStep t pid p).x ^ 2 + (auraStep t pid p).z ^ 2 = p.x ^ 2 + p.z ^ 2 ∧
    (auraStep t pid p).y = p.y + Real.sin (t + pid) * (1 / 100) := by
  constructor
  · unfold auraStep
    simp only
    linear_combination (p.x ^ 2 + p.z ^ 2) * Real.sin_sq_add_cos_sq (2 / 1000)
  · rfl

end ChristmasTree
